import Mathlib

/-!
Shallow embedding of the Mecalux-AMR spatial pipeline, translated from
`src/backend/layer1/utils/prohibited_zone_generator.py` (shape
rasterization onto a boolean grid and the grid text export) and
`src/backend/layer1/utils/poi_generator.py` (map loading,
configuration-space inflation, and clustered POI placement).

Conventions of the embedding:
* a grid is a `List (List Bool)` exactly as the Python code uses lists of
  lists, with `true` = walkable/accessible and `false` = obstacle;
* Python `int` becomes `Int`/`Nat`, Python `float` becomes `ℚ`
  (every comparison the claims depend on is exact at the inputs used,
  e.g. `math.sqrt (dx*dx+dy*dy) < d` with integer inputs is decided by
  comparing `dx*dx+dy*dy` with `d*d`);
* the external `random` module is modeled by an explicit generator state
  `σ` with a caller-supplied `shuffle` function, threaded exactly the way
  the source threads the module-level generator;
* `math.cos`/`math.sin` (used only for rotated rectangles) are modeled by
  a caller-supplied function from an angle in degrees to its
  cosine/sine pair.
-/

namespace Mecalux

/-- A 2D boolean grid, row-major: `grid[y][x]`, `true` = walkable. -/
abbrev Grid := List (List Bool)

/-- `grid[y][x]`.  Every read in the source is bounds-guarded (Python
would raise otherwise), so the default value of the total Lean lookup is
never observable. -/
def getCell (g : Grid) (y x : Nat) : Bool := (g.getD y []).getD x true

/-- `grid[y][x] = v`.  Every write in the source is in range; the Lean
version is a no-op out of range. -/
def setCell (g : Grid) (y x : Nat) (v : Bool) : Grid :=
  g.set y ((g.getD y []).set x v)

/-- Python `range(lo, hi)` over integers. -/
def intRange (lo hi : Int) : List Int :=
  (List.range (hi - lo).toNat).map (fun (i : Nat) => lo + (i : Int))

/-- The characters stripped by Python `str.rstrip()`. -/
def isPySpace (c : Char) : Bool :=
  c = ' ' || c = '\t' || c = '\n' || c = '\r' || c = '\x0b' || c = '\x0c'

/-- Python `line.rstrip()` on a line of characters. -/
def rstrip (l : List Char) : List Char := (l.reverse.dropWhile isPySpace).reverse

/-- `MapAccessibility._load_map` cell rule: `'.'`, `'0'` and `' '` are
walkable, anything else (`'#'`, `'X'`, ...) is an obstacle. -/
def walkableChar (c : Char) : Bool := c = '.' || c = '0' || c = ' '

/-- The fields `MapAccessibility._load_map` fills in. -/
structure LoadedMap where
  height : Nat
  width : Nat
  static_map : Grid

/-- `MapAccessibility._load_map`: the file is read with `readlines()`, so
every element of `lines` still carries its trailing newline; the height
is the number of lines, the width is the maximum `rstrip`-ped line
length, and rows are padded with walkable cells. -/
def loadMap (lines : List (List Char)) : LoadedMap :=
  let height := lines.length
  let width :=
    if lines = [] then 0
    else (lines.map (fun line => (rstrip line).length)).foldl Nat.max 0
  let static_map := lines.map (fun line =>
    let line := rstrip line
    (List.range width).map (fun i =>
      if i < line.length then walkableChar (line.getD i ' ') else true))
  ⟨height, width, static_map⟩

/-- `ProhibitedZoneGenerator.export_to_bitmap_file`, at the level of the
lines written to the file (each line keeps its trailing newline, which is
exactly how `readlines()` hands them back): line 1 is
`"{width} {height}"`, then one row per grid line with `'.'` = walkable
and `'#'` = obstacle. -/
def export_to_bitmap_lines (grid_width grid_height : Nat) (grid : Grid) :
    List (List Char) :=
  ((Nat.repr grid_width).data ++ [' '] ++ (Nat.repr grid_height).data ++ ['\n']) ::
    grid.map (fun row => row.map (fun cell => if cell then '.' else '#') ++ ['\n'])

/-- `POIConfig` with the source's defaults. -/
structure POIConfig where
  max_charging_clusters : Nat := 3
  max_charging_per_cluster : Nat := 2
  max_pickup_clusters : Nat := 4
  max_pickup_per_cluster : Nat := 4
  max_dropoff_clusters : Nat := 4
  max_dropoff_per_cluster : Nat := 4
  cluster_spacing : Nat := 10
  inter_cluster_spacing : Nat := 30
  robot_radius_meters : ℚ := 3 / 10
  resolution_meters_per_pixel : ℚ := 1 / 10
  edge_margin : Nat := 10

/-- `radius_pixels = int(math.ceil(robot_radius_meters / resolution))`,
with exact rational arithmetic standing in for the float computation. -/
def radiusPixels (c : POIConfig) : Nat :=
  (⌈c.robot_radius_meters / c.resolution_meters_per_pixel⌉ : Int).toNat

/-- The inner double loop of `MapAccessibility._inflate_map` for one
obstacle at `(x, y)`: close every in-bounds cell within Euclidean
distance `r` (the write is guarded by `if inflated[ny][nx]` in the
source, which only affects the closed-cell counter, not the grid). -/
def closeDisk (H W r : Nat) (y x : Nat) (g : Grid) : Grid :=
  (intRange (-(r : Int)) ((r : Int) + 1)).foldl (fun g1 dy =>
    (intRange (-(r : Int)) ((r : Int) + 1)).foldl (fun g2 dx =>
      if dx * dx + dy * dy ≤ (r : Int) * (r : Int) then
        let ny := (y : Int) + dy
        let nx := (x : Int) + dx
        if 0 ≤ ny ∧ ny < (H : Int) ∧ 0 ≤ nx ∧ nx < (W : Int) then
          if getCell g2 ny.toNat nx.toNat then setCell g2 ny.toNat nx.toNat false
          else g2
        else g2
      else g2) g1) g

/-- The obstacle-dilation phase of `MapAccessibility._inflate_map`: for
every static obstacle cell, close the surrounding disk of radius `r`. -/
def inflateObstacles (static_map : Grid) (H W r : Nat) (g : Grid) : Grid :=
  (List.range H).foldl (fun g1 y =>
    (List.range W).foldl (fun g2 x =>
      if getCell static_map y x then g2 else closeDisk H W r y x g2) g1) g

/-- The edge-margin phase of `MapAccessibility._inflate_map`: close every
cell within `margin` of a grid edge (again the `if inflated[y][x]` guard
in the source only drives the counter). -/
def closeMargin (H W margin : Nat) (g : Grid) : Grid :=
  (List.range H).foldl (fun g1 (y : Nat) =>
    (List.range W).foldl (fun g2 (x : Nat) =>
      if (x : Int) < (margin : Int) ∨ (W : Int) - (margin : Int) ≤ (x : Int) ∨
          (y : Int) < (margin : Int) ∨ (H : Int) - (margin : Int) ≤ (y : Int) then
        if getCell g2 y x then setCell g2 y x false else g2
      else g2) g1) g

/-- `MapAccessibility._inflate_map`: start from a copy of the static map,
dilate every obstacle by `r`, then close the edge margin. -/
def inflateMap (static_map : Grid) (H W r margin : Nat) : Grid :=
  closeMargin H W margin (inflateObstacles static_map H W r static_map)

/-- The state built by `MapAccessibility.__init__`. -/
structure MapAccessibility where
  config : POIConfig
  width : Nat
  height : Nat
  static_map : Grid
  inflated_map : Grid

/-- `MapAccessibility.__init__`: `_load_map` then `_inflate_map`. -/
def mkMapAccessibility (lines : List (List Char)) (config : POIConfig) :
    MapAccessibility :=
  let lm := loadMap lines
  ⟨config, lm.width, lm.height, lm.static_map,
    inflateMap lm.static_map lm.height lm.width (radiusPixels config) config.edge_margin⟩

/-- `MapAccessibility.is_accessible`: in-bounds positions read the
inflated map, everything else is `False`. -/
def MapAccessibility.is_accessible (m : MapAccessibility) (x y : Int) : Bool :=
  if 0 ≤ x ∧ x < (m.width : Int) ∧ 0 ≤ y ∧ y < (m.height : Int) then
    getCell m.inflated_map y.toNat x.toNat
  else false

/-- A grid position `(x, y)`, as the Python tuples. -/
abbrev Pos := Int × Int

/-- `MapAccessibility.get_accessible_cells`: all accessible `(x, y)` in
row-major order. -/
def MapAccessibility.get_accessible_cells (m : MapAccessibility) : List Pos :=
  (List.range m.height).foldl (fun acc y =>
    (List.range m.width).foldl (fun acc2 x =>
      if getCell m.inflated_map y x then acc2 ++ [((x : Int), (y : Int))] else acc2)
      acc) []

/-- `MapAccessibility.find_accessible_region`: accessible cells within
Euclidean distance `radius` of the center. -/
def MapAccessibility.find_accessible_region (m : MapAccessibility)
    (center_x center_y : Int) (radius : Nat) : List Pos :=
  (intRange (-(radius : Int)) ((radius : Int) + 1)).foldl (fun acc dy =>
    (intRange (-(radius : Int)) ((radius : Int) + 1)).foldl (fun acc2 dx =>
      if dx * dx + dy * dy ≤ (radius : Int) * (radius : Int) then
        let x := center_x + dx
        let y := center_y + dy
        if m.is_accessible x y then acc2 ++ [(x, y)] else acc2
      else acc2) acc) []

/-- The `Cluster` dataclass. -/
structure Cluster where
  center_x : Int
  center_y : Int
  poi_type : String
  nodes : List Pos

/-- The mutable state of a `POIGenerator` instance: the module-level
`random` generator state plus the `clusters` and `used_positions`
fields. -/
structure GenState (σ : Type) where
  rng : σ
  clusters : List Cluster
  used_positions : List Pos

/-- `random.shuffle`, modeled as an arbitrary state-passing function on
the generator state (the source consumes the module-level generator,
which `random.seed(seed)` pins to a deterministic stream). -/
def Shuffle (σ : Type) := List Pos → σ → List Pos × σ

/-- `POIGenerator.__init__` with a seeded generator: empty cluster list,
empty used-position set, generator state determined by the seed. -/
def initState {σ : Type} (rng : σ) : GenState σ := ⟨rng, [], []⟩

/-- Squared Euclidean distance.  `POIGenerator._distance` computes
`math.sqrt(dxv*dxv + dyv*dyv)` and every use compares it against an
integer spacing `d`; since the square root is monotone this is exactly
the comparison of `dxv*dxv + dyv*dyv` with `d*d`. -/
def distSq (p q : Pos) : Int :=
  (p.1 - q.1) * (p.1 - q.1) + (p.2 - q.2) * (p.2 - q.2)

/-- `POIGenerator._is_valid_cluster_center`: accessible and at distance
`≥ min_dist` from every existing cluster center. -/
def _is_valid_cluster_center (m : MapAccessibility) (clusters : List Cluster)
    (x y : Int) (min_dist : Nat) : Bool :=
  m.is_accessible x y &&
    clusters.all (fun c =>
      !(distSq (x, y) (c.center_x, c.center_y) < (min_dist : Int) * (min_dist : Int)))

/-- `POIGenerator._is_valid_poi_position`: accessible and at distance
`≥ min_dist` from every used position. -/
def _is_valid_poi_position (m : MapAccessibility) (used : List Pos)
    (x y : Int) (min_dist : Nat) : Bool :=
  m.is_accessible x y &&
    used.all (fun pos => !(distSq (x, y) pos < (min_dist : Int) * (min_dist : Int)))

/-- `used_positions.add(pos)` on the Python set, modeled on a
duplicate-free list. -/
def addUsed (used : List Pos) (p : Pos) : List Pos :=
  if p ∈ used then used else used ++ [p]

/-- `POIGenerator._find_cluster_center`: shuffle the accessible cells and
return the first valid center (the `poi_type` argument is unused in the
source as well). -/
def _find_cluster_center {σ : Type} (m : MapAccessibility) (sh : Shuffle σ)
    (poi_type : String) (s : GenState σ) : Option Pos × σ :=
  let res := sh m.get_accessible_cells s.rng
  (res.1.find? (fun p =>
      _is_valid_cluster_center m s.clusters p.1 p.2 m.config.inter_cluster_spacing),
    res.2)

/-- One iteration of the `_populate_cluster` candidate loop: skip once
the cluster is full (`break`, the loop having no other effect), accept a
valid candidate into the cluster nodes and the used-position set, skip
an invalid one. -/
def populate_step (m : MapAccessibility) (max_nodes : Nat)
    (acc : Cluster × List Pos) (p : Pos) : Cluster × List Pos :=
  if max_nodes ≤ acc.1.nodes.length then acc
  else if _is_valid_poi_position m acc.2 p.1 p.2 m.config.cluster_spacing then
    (⟨acc.1.center_x, acc.1.center_y, acc.1.poi_type, acc.1.nodes ++ [p]⟩,
      addUsed acc.2 p)
  else acc

/-- `POIGenerator._populate_cluster`: shuffle the accessible cells within
`inter_cluster_spacing // 2` of the center and greedily accept valid
positions until `max_nodes` is reached. -/
def _populate_cluster {σ : Type} (m : MapAccessibility) (sh : Shuffle σ)
    (rng : σ) (used : List Pos) (cluster : Cluster) (max_nodes : Nat) :
    Cluster × List Pos × σ :=
  let search_radius := m.config.inter_cluster_spacing / 2
  let candidates := m.find_accessible_region cluster.center_x cluster.center_y search_radius
  let res := sh candidates rng
  let out := res.1.foldl (populate_step m max_nodes) (cluster, used)
  (out.1, out.2, res.2)

/-- The common body of `generate_charging_clusters`,
`generate_pickup_clusters` and `generate_dropoff_clusters` (the source
repeats the same loop verbatim for each category): find a center, build
and populate a cluster, and keep it only when it accepted at least one
node.  The source draws `num_clusters`/`nodes_per_cluster` from
`random.randint` when they are not supplied; they are explicit arguments
here. -/
def generate_step {σ : Type} (m : MapAccessibility) (sh : Shuffle σ)
    (poi_type : String) (nodes_per_cluster : Nat) (st : GenState σ) (i : Nat) :
    GenState σ :=
  let fc := _find_cluster_center m sh poi_type st
  match fc.1 with
  | none => ⟨fc.2, st.clusters, st.used_positions⟩
  | some center =>
    let cluster : Cluster := ⟨center.1, center.2, poi_type, []⟩
    let out := _populate_cluster m sh fc.2 st.used_positions cluster nodes_per_cluster
    if out.1.nodes = [] then ⟨out.2.2, st.clusters, out.2.1⟩
    else ⟨out.2.2, st.clusters ++ [out.1], out.2.1⟩

/-- The `for _ in range(num_clusters)` loop shared by the three
`generate_*` methods. -/
def generate_clusters {σ : Type} (m : MapAccessibility) (sh : Shuffle σ)
    (poi_type : String) (num_clusters nodes_per_cluster : Nat) (s : GenState σ) :
    GenState σ :=
  (List.range num_clusters).foldl (generate_step m sh poi_type nodes_per_cluster) s

/-- `POIGenerator.generate_charging_clusters`. -/
def generate_charging_clusters {σ : Type} (m : MapAccessibility) (sh : Shuffle σ)
    (num_clusters nodes_per_cluster : Nat) (s : GenState σ) : GenState σ :=
  generate_clusters m sh ("CHARGING") num_clusters nodes_per_cluster s

/-- `POIGenerator.generate_pickup_clusters`. -/
def generate_pickup_clusters {σ : Type} (m : MapAccessibility) (sh : Shuffle σ)
    (num_clusters nodes_per_cluster : Nat) (s : GenState σ) : GenState σ :=
  generate_clusters m sh ("PICKUP") num_clusters nodes_per_cluster s

/-- `POIGenerator.generate_dropoff_clusters`. -/
def generate_dropoff_clusters {σ : Type} (m : MapAccessibility) (sh : Shuffle σ)
    (num_clusters nodes_per_cluster : Nat) (s : GenState σ) : GenState σ :=
  generate_clusters m sh ("DROPOFF") num_clusters nodes_per_cluster s

/-- `POIGenerator.generate_all` / `main`: charging, then pickup, then
dropoff, in the source's fixed order. -/
def generate_all {σ : Type} (m : MapAccessibility) (sh : Shuffle σ)
    (nc nn pc pn dc dn : Nat) (s : GenState σ) : GenState σ :=
  generate_dropoff_clusters m sh dc dn
    (generate_pickup_clusters m sh pc pn
      (generate_charging_clusters m sh nc nn s))

/-- One entry of the `poi` array built by `POIGenerator.to_poi_config`. -/
structure POI where
  id : String
  type : String
  x : Int
  y : Int
  active : Bool
  cluster_center : Int × Int

/-- `POIGenerator.to_poi_config`, restricted to the `poi` array: walk the
clusters in order, numbering charging ids `C0, C1, ...`, pickup ids with
even `P`-numbers and dropoff ids with odd `P`-numbers. -/
def to_poi_config (clusters : List Cluster) : List POI :=
  (clusters.foldl (fun (st : Nat × Nat × Nat × List POI) c =>
    c.nodes.foldl (fun (st2 : Nat × Nat × Nat × List POI) p =>
      if c.poi_type = ("CHARGING") then
        (st2.1 + 1, st2.2.1, st2.2.2.1, st2.2.2.2 ++
          [⟨("C") ++ Nat.repr st2.1, c.poi_type, p.1, p.2, true, (c.center_x, c.center_y)⟩])
      else if c.poi_type = ("PICKUP") then
        (st2.1, st2.2.1 + 1, st2.2.2.1, st2.2.2.2 ++
          [⟨("P") ++ Nat.repr (st2.2.1 * 2), c.poi_type, p.1, p.2, true, (c.center_x, c.center_y)⟩])
      else
        (st2.1, st2.2.1, st2.2.2.1 + 1, st2.2.2.2 ++
          [⟨("P") ++ Nat.repr (st2.2.2.1 * 2 + 1), c.poi_type, p.1, p.2, true, (c.center_x, c.center_y)⟩]))
      st) (0, 0, 0, [])).2.2.2

/-- The `Object` dataclass of `warehouse_layout_loader.py` (coordinates
and dimensions in meters, rotation in degrees). -/
structure Object where
  model_index : Int
  center : ℚ × ℚ × ℚ
  dimensions : ℚ × ℚ × ℚ
  rotation : ℚ

/-- The state of a `ProhibitedZoneGenerator` the marking methods touch. -/
structure ProhibitedZoneGenerator where
  resolution_m_per_px : ℚ
  robot_radius_m : ℚ
  grid_width : Nat
  grid_height : Nat
  grid : Grid

/-- `ProhibitedZoneGenerator._mark_rectangle_obstacle`: floor/ceil the
physical bounds into cell bounds, clamp to the grid, and mark the closed
cell range. -/
def _mark_rectangle_obstacle (gen : ProhibitedZoneGenerator)
    (center_x center_y width height : ℚ) : ProhibitedZoneGenerator :=
  let res := gen.resolution_m_per_px
  let x1 : Int := ⌊(center_x - width / 2) / res⌋
  let x2 : Int := ⌈(center_x + width / 2) / res⌉
  let y1 : Int := ⌊(center_y - height / 2) / res⌋
  let y2 : Int := ⌈(center_y + height / 2) / res⌉
  let x1 := max 0 (min x1 ((gen.grid_width : Int) - 1))
  let x2 := max 0 (min x2 ((gen.grid_width : Int) - 1))
  let y1 := max 0 (min y1 ((gen.grid_height : Int) - 1))
  let y2 := max 0 (min y2 ((gen.grid_height : Int) - 1))
  let g := (intRange y1 (y2 + 1)).foldl (fun g1 y =>
    (intRange x1 (x2 + 1)).foldl (fun g2 x =>
      if 0 ≤ y ∧ y < (gen.grid_height : Int) ∧ 0 ≤ x ∧ x < (gen.grid_width : Int) then
        setCell g2 y.toNat x.toNat false
      else g2) g1) gen.grid
  ⟨gen.resolution_m_per_px, gen.robot_radius_m, gen.grid_width, gen.grid_height, g⟩

/-- `ProhibitedZoneGenerator._mark_circle_obstacle`: scan the
`floor`/`ceil` bounding box with Python's half-open `range` and mark the
cells whose Euclidean distance to the center is at most the radius (the
float `math.sqrt(dxq*dxq+dyq*dyq) <= radius_px` test is the exact
comparison of squares). -/
def _mark_circle_obstacle (gen : ProhibitedZoneGenerator)
    (center_x center_y radius : ℚ) : ProhibitedZoneGenerator :=
  let res := gen.resolution_m_per_px
  let center_px_x := center_x / res
  let center_px_y := center_y / res
  let radius_px := radius / res
  let x_min : Int := max 0 ⌊center_px_x - radius_px⌋
  let x_max : Int := min (gen.grid_width : Int) ⌈center_px_x + radius_px⌉
  let y_min : Int := max 0 ⌊center_px_y - radius_px⌋
  let y_max : Int := min (gen.grid_height : Int) ⌈center_px_y + radius_px⌉
  let g := (intRange y_min y_max).foldl (fun g1 (y : Int) =>
    (intRange x_min x_max).foldl (fun g2 (x : Int) =>
      let dxq := (x : ℚ) - center_px_x
      let dyq := (y : ℚ) - center_px_y
      if dxq * dxq + dyq * dyq ≤ radius_px * radius_px then
        setCell g2 y.toNat x.toNat false
      else g2) g1) gen.grid
  ⟨gen.resolution_m_per_px, gen.robot_radius_m, gen.grid_width, gen.grid_height, g⟩

/-- Minimum of a list of rationals (`min(xs)` on a nonempty list). -/
def qListMin : List ℚ → ℚ
  | [] => 0
  | a :: as => as.foldl min a

/-- Maximum of a list of rationals (`max(xs)` on a nonempty list). -/
def qListMax : List ℚ → ℚ
  | [] => 0
  | a :: as => as.foldl max a

/-- `ProhibitedZoneGenerator._point_in_polygon`: even-odd ray casting.
When the crossing guard holds, `p1y ≠ p2y` is forced (otherwise
`y > min` and `y ≤ max` contradict), so `xinters` is always the freshly
assigned interpolation. -/
def _point_in_polygon (x y : ℚ) (vertices : List (ℚ × ℚ)) : Bool :=
  match vertices with
  | [] => false
  | v0 :: _ =>
    let n := vertices.length
    (((List.range n).map (fun i => i + 1)).foldl (fun (st : (ℚ × ℚ) × Bool) i =>
      let p1 := st.1
      let p2 := vertices.getD (i % n) (0, 0)
      let inside :=
        if y > min p1.2 p2.2 ∧ y ≤ max p1.2 p2.2 ∧ x ≤ max p1.1 p2.1 then
          let xinters := (y - p1.2) * (p2.1 - p1.1) / (p2.2 - p1.2) + p1.1
          if p1.1 = p2.1 ∨ x ≤ xinters then !st.2 else st.2
        else st.2
      (p2, inside)) (v0, false)).2

/-- `ProhibitedZoneGenerator._rasterize_polygon`: convert the vertices to
pixel coordinates, scan the clamped bounding box, and mark the cells
whose center passes the point-in-polygon test. -/
def _rasterize_polygon (gen : ProhibitedZoneGenerator)
    (vertices : List (ℚ × ℚ)) : ProhibitedZoneGenerator :=
  if vertices.length < 3 then gen
  else
    let res := gen.resolution_m_per_px
    let vertices_px := vertices.map (fun v => (v.1 / res, v.2 / res))
    let xs := vertices_px.map (fun v => v.1)
    let ys := vertices_px.map (fun v => v.2)
    let x_min : Int := max 0 ⌊qListMin xs⌋
    let x_max : Int := min (gen.grid_width : Int) ⌈qListMax xs⌉
    let y_min : Int := max 0 ⌊qListMin ys⌋
    let y_max : Int := min (gen.grid_height : Int) ⌈qListMax ys⌉
    let g := (intRange y_min y_max).foldl (fun g1 (y : Int) =>
      (intRange x_min x_max).foldl (fun g2 (x : Int) =>
        if _point_in_polygon (x : ℚ) (y : ℚ) vertices_px then
          setCell g2 y.toNat x.toNat false
        else g2) g1) gen.grid
    ⟨gen.resolution_m_per_px, gen.robot_radius_m, gen.grid_width, gen.grid_height, g⟩

/-- `ProhibitedZoneGenerator._mark_rotated_rectangle_obstacle`: rotate
the local corners by `rotation_deg` (the `trig` argument models
`math.cos`/`math.sin` of the angle converted to radians), translate to
world coordinates and rasterize the quadrilateral. -/
def _mark_rotated_rectangle_obstacle (trig : ℚ → ℚ × ℚ)
    (gen : ProhibitedZoneGenerator)
    (center_x center_y width height rotation_deg : ℚ) : ProhibitedZoneGenerator :=
  let half_w := width / 2
  let half_h := height / 2
  let corners_local : List (ℚ × ℚ) :=
    [(-half_w, -half_h), (half_w, -half_h), (half_w, half_h), (-half_w, half_h)]
  let cs := trig rotation_deg
  let corners_world := corners_local.map (fun l =>
    (center_x + (l.1 * cs.1 - l.2 * cs.2), center_y + (l.1 * cs.2 + l.2 * cs.1)))
  _rasterize_polygon gen corners_world

/-- `ProhibitedZoneGenerator._mark_object_obstacle`: charging-station
models (`modelIndex == 5`) are skipped entirely; otherwise the 2D
top-down footprint (`center[0]`, `center[2]`, `dimensions[0]`,
`dimensions[2]`) is marked, as an axis-aligned rectangle when the
rotation is within `0.01` of 0 or 180 degrees and as a rotated rectangle
otherwise. -/
def _mark_object_obstacle (trig : ℚ → ℚ × ℚ)
    (gen : ProhibitedZoneGenerator) (obj : Object) : ProhibitedZoneGenerator :=
  if obj.model_index = 5 then gen
  else
    let center_x := obj.center.1
    let center_y := obj.center.2.2
    let width := obj.dimensions.1
    let height := obj.dimensions.2.2
    let rotation := obj.rotation
    if |rotation| < 1 / 100 ∨ |rotation - 180| < 1 / 100 then
      _mark_rectangle_obstacle gen center_x center_y width height
    else
      _mark_rotated_rectangle_obstacle trig gen center_x center_y width height rotation

/-- A grid has `H` rows of `W` cells each (the shape every grid built by
the source has). -/
abbrev Dims (g : Grid) (H W : Nat) : Prop :=
  g.length = H ∧ ∀ row ∈ g, row.length = W

/-- Cell `(X, Y)` lies in the edge band closed unconditionally by the
margin phase of `_inflate_map`. -/
abbrev inMarginBand (H W margin Y X : Nat) : Prop :=
  (X : Int) < (margin : Int) ∨ (W : Int) - (margin : Int) ≤ (X : Int) ∨
    (Y : Int) < (margin : Int) ∨ (H : Int) - (margin : Int) ≤ (Y : Int)

/-- Every pair of distinct cluster centers in the list is at squared
Euclidean distance `≥ d²`, i.e. at Euclidean distance `≥ d`. -/
def centersSpaced (clusters : List Cluster) (d : Nat) : Prop :=
  clusters.Pairwise (fun a b =>
    (d : Int) * (d : Int) ≤ distSq (a.center_x, a.center_y) (b.center_x, b.center_y))

/-- Every pair of distinct positions in the list is at squared Euclidean
distance `≥ d²`, i.e. at Euclidean distance `≥ d`. -/
def poisSpaced (used : List Pos) (d : Nat) : Prop :=
  used.Pairwise (fun p q => (d : Int) * (d : Int) ≤ distSq p q)

/-- Every listed position is an accessible cell of the inflated grid. -/
def allAccessible (m : MapAccessibility) (used : List Pos) : Prop :=
  ∀ p ∈ used, m.is_accessible p.1 p.2 = true

/-- Every node of every cluster appears among the used positions. -/
def nodesSubUsed (clusters : List Cluster) (used : List Pos) : Prop :=
  ∀ c ∈ clusters, ∀ p ∈ c.nodes, p ∈ used

/-- Every cluster in the list accepted at least one node. -/
def allNonempty (clusters : List Cluster) : Prop :=
  ∀ c ∈ clusters, c.nodes ≠ []

/-- The identity permutation, a concrete possible behavior of the
modeled `random.shuffle`. -/
def idShuffle : Shuffle Unit := fun l s => (l, s)

/-- A freshly constructed generator state over the trivial PRNG state. -/
def s0 : GenState Unit := initState ()

/-- A concrete configuration: spacing 10/4, no inflation radius and no
edge margin, so the accessible grid equals the loaded grid. -/
def exCfg : POIConfig :=
  { cluster_spacing := 10, inter_cluster_spacing := 4,
    robot_radius_meters := 0, resolution_meters_per_pixel := 1, edge_margin := 0 }

/-- A concrete 8×1 accessibility state (cells 0,1,6,7 walkable, 2..5
obstacles; no inflation radius and no margin under `exCfg`, so the
inflated map equals the static map — the state `MapAccessibility`
reaches on the map file `"..####.."`). -/
def exMap : MapAccessibility :=
  ⟨exCfg, 8, 1, [[true, true, false, false, false, false, true, true]],
    [[true, true, false, false, false, false, true, true]]⟩

/-- A concrete 1×1 accessibility state with no accessible cell at all
(the state reached on the map file `"#"` under `exCfg`). -/
def exMapBlocked : MapAccessibility := ⟨exCfg, 1, 1, [[false]], [[false]]⟩

/-- A concrete 1×1 all-walkable grid. -/
def exGrid1 : Grid := [[true]]

/-- A concrete 3×3 all-walkable grid. -/
def exGrid3 : Grid :=
  [[true, true, true], [true, true, true], [true, true, true]]

/-- A concrete 5×5 grid whose only obstacle is the center cell (2,2). -/
def exGrid5 : Grid :=
  [[true, true, true, true, true],
   [true, true, true, true, true],
   [true, true, false, true, true],
   [true, true, true, true, true],
   [true, true, true, true, true]]

/-- A concrete 10×10 all-walkable `ProhibitedZoneGenerator` at
resolution 1 m/pixel. -/
def exPZ : ProhibitedZoneGenerator :=
  ⟨1, 3 / 10, 10, 10, List.replicate 10 (List.replicate 10 true)⟩

/-- A concrete charging-station object (`modelIndex = 5`). -/
def exObj5 : Object := ⟨5, (1, 0, 1), (2, 1, 2), 0⟩

/-- A concrete trig oracle (the rotation-0 cosine/sine pair). -/
def exTrig : ℚ → ℚ × ℚ := fun _ => (1, 0)

/-! ## Theorems -/

/-- Claim C1 (code bug witness): `export_to_bitmap_file` writes a
`"{width} {height}"` header line, but `_load_map` counts every line of
the file as a map row, so the round trip fails already on the 1×1
walkable grid: parsing its export yields height 2 instead of 1, width 3
(the header `"1 1"` is the longest line), and an obstacle at (0,0) (the
header digit `'1'` is not a walkable character) where the exported grid
was walkable. -/
theorem export_parse_header_mismatch :
    (loadMap (export_to_bitmap_lines 1 1 exGrid1)).height = 2 ∧
    exGrid1.length = 1 ∧
    (loadMap (export_to_bitmap_lines 1 1 exGrid1)).width = 3 ∧
    getCell (loadMap (export_to_bitmap_lines 1 1 exGrid1)).static_map 0 0 = false ∧
    getCell exGrid1 0 0 = true := by decide

/-- Claim C6 (code bug witness): for the circle of radius 1 cell
centered at cell (5,5) of a 10×10 all-walkable grid (resolution 1), the
boundary cell (x,y) = (6,5) satisfies `dx*dx + dy*dy ≤ r*r`, yet
`_mark_circle_obstacle` leaves it walkable, because the scan runs over
Python's half-open `range(x_min, x_max)` with
`x_max = min(width, ceil(cx + r))`, which excludes the right/bottom
boundary of the disk; the center cell itself is marked as expected. -/
theorem circle_boundary_cell_unmarked :
    getCell (_mark_circle_obstacle exPZ 5 5 1).grid 5 6 = true ∧
    ((6 : Int) - 5) * ((6 : Int) - 5) + ((5 : Int) - 5) * ((5 : Int) - 5) ≤ 1 * 1 ∧
    getCell (_mark_circle_obstacle exPZ 5 5 1).grid 5 5 = false := by
  refine ⟨?_, by decide, ?_⟩
  · norm_num [_mark_circle_obstacle, exPZ, intRange, getCell, setCell,
      List.range_succ, List.foldl, List.getD]
    decide
  · norm_num [_mark_circle_obstacle, exPZ, intRange, getCell, setCell,
      List.range_succ, List.foldl, List.getD]
    decide

/-- Claim C9: `_mark_object_obstacle` returns the generator unchanged on
every object with `model_index = 5` (charging-station model), for any
trig oracle and any grid state; consequently only objects with
`model_index ≠ 5` can change grid cells. -/
theorem charging_station_not_marked (trig : ℚ → ℚ × ℚ)
    (gen : ProhibitedZoneGenerator) (obj : Object) (h : obj.model_index = 5) :
    _mark_object_obstacle trig gen obj = gen ∧
    (∀ gen2 obj2, _mark_object_obstacle trig gen2 obj2 ≠ gen2 →
      obj2.model_index ≠ 5) := by
  constructor
  · simp [_mark_object_obstacle, h]
  · intro gen2 obj2 hne h5
    exact hne (by simp [_mark_object_obstacle, h5])

/-- Witness for C9 at a concrete charging-station object. -/
theorem charging_station_not_marked_witness :
    _mark_object_obstacle exTrig exPZ exObj5 = exPZ :=
  (charging_station_not_marked exTrig exPZ exObj5 rfl).1

/-- Claim C10: `is_accessible` is total: every out-of-bounds query (in
any of the four directions) returns `false` rather than raising, and
every in-bounds query returns the inflated-grid cell. -/
theorem is_accessible_total (m : MapAccessibility) (x y : Int) :
    ((x < 0 ∨ (m.width : Int) ≤ x ∨ y < 0 ∨ (m.height : Int) ≤ y) →
      m.is_accessible x y = false) ∧
    (0 ≤ x → x < (m.width : Int) → 0 ≤ y → y < (m.height : Int) →
      m.is_accessible x y = getCell m.inflated_map y.toNat x.toNat) := by
  constructor
  · intro h
    simp only [MapAccessibility.is_accessible]
    split_ifs with hc
    · exact absurd hc (by omega)
    · rfl
  · intro h1 h2 h3 h4
    simp only [MapAccessibility.is_accessible]
    split_ifs with hc
    · rfl
    · exact absurd (by omega : 0 ≤ x ∧ x < (m.width : Int) ∧ 0 ≤ y ∧ y < (m.height : Int)) hc

/-- Witness for C10 on a concrete map: the query at x = -1 (and at
y = 5, beyond the single row) returns `false`, and the in-bounds query
returns the inflated cell. -/
theorem is_accessible_total_witness :
    exMap.is_accessible (-1) 0 = false ∧
    exMap.is_accessible 0 5 = false ∧
    exMap.is_accessible 0 0 = getCell exMap.inflated_map 0 0 :=
  ⟨(is_accessible_total exMap (-1) 0).1 (Or.inl (by decide)),
    (is_accessible_total exMap 0 5).1 (Or.inr (Or.inr (Or.inr (by decide)))),
    (is_accessible_total exMap 0 0).2 (by decide) (by decide) (by decide) (by decide)⟩

/-- Claim C7: placement is a pure function of the shuffle oracle (the
seeded PRNG), the accessible map, and the per-category counts processed
in the fixed charging → pickup → dropoff order, so two runs with
identical seed state, identical map and identical parameters produce
identical cluster lists and an identical `poi` array (same ids, same
positions, same order). -/
theorem placement_deterministic {σ : Type} (sh : Shuffle σ) (r1 r2 : σ)
    (m1 m2 : MapAccessibility)
    (nc1 nn1 pc1 pn1 dc1 dn1 nc2 nn2 pc2 pn2 dc2 dn2 : Nat)
    (hr : r1 = r2) (hm : m1 = m2) (h1 : nc1 = nc2) (h2 : nn1 = nn2)
    (h3 : pc1 = pc2) (h4 : pn1 = pn2) (h5 : dc1 = dc2) (h6 : dn1 = dn2) :
    generate_all m1 sh nc1 nn1 pc1 pn1 dc1 dn1 (initState r1) =
      generate_all m2 sh nc2 nn2 pc2 pn2 dc2 dn2 (initState r2) ∧
    to_poi_config (generate_all m1 sh nc1 nn1 pc1 pn1 dc1 dn1 (initState r1)).clusters =
      to_poi_config (generate_all m2 sh nc2 nn2 pc2 pn2 dc2 dn2 (initState r2)).clusters := by
  subst hr hm h1 h2 h3 h4 h5 h6
  exact ⟨rfl, rfl⟩

/-- Witness for C7 at a concrete map, seed state and parameter set. -/
theorem placement_deterministic_witness :
    generate_all exMap idShuffle 1 1 1 1 1 1 (initState ()) =
      generate_all exMap idShuffle 1 1 1 1 1 1 (initState ()) ∧
    to_poi_config (generate_all exMap idShuffle 1 1 1 1 1 1 (initState ())).clusters =
      to_poi_config (generate_all exMap idShuffle 1 1 1 1 1 1 (initState ())).clusters :=
  placement_deterministic idShuffle () () exMap exMap 1 1 1 1 1 1 1 1 1 1 1 1
    rfl rfl rfl rfl rfl rfl rfl rfl

/-- Claim C2 (counterexample): in the concrete run over `exMap` (spacing
4/10) with the identity shuffle, the second charging round finds center
(6,0), its population step accepts zero nodes, and the cluster is
discarded — but its center is NOT recorded in the cluster-center spacing
pool (`self.clusters` holds only the kept cluster at (0,0)), so the very
next `_find_cluster_center` call accepts the candidate (6,0) again, at
Euclidean distance 0 < inter_cluster_spacing from the discarded
center. -/
theorem discarded_center_not_recorded_counterexample :
    (_find_cluster_center exMap idShuffle ("CHARGING")
        (generate_charging_clusters exMap idShuffle 1 1 s0)).1 = some (6, 0) ∧
    (_populate_cluster exMap idShuffle ()
        (generate_charging_clusters exMap idShuffle 1 1 s0).used_positions
        ⟨6, 0, ("CHARGING"), []⟩ 1).1.nodes = [] ∧
    ((generate_charging_clusters exMap idShuffle 2 1 s0).clusters.map
        (fun c => (c.center_x, c.center_y))) = [(0, 0)] ∧
    (_find_cluster_center exMap idShuffle ("CHARGING")
        (generate_charging_clusters exMap idShuffle 2 1 s0)).1 = some (6, 0) ∧
    distSq (6, 0) (6, 0) <
      (exCfg.inter_cluster_spacing : Int) * (exCfg.inter_cluster_spacing : Int) := by
  decide

/-- Invariants are preserved by `List.foldl`. -/
theorem foldl_inv {α β : Type} (P : β → Prop) (f : β → α → β)
    (hP : ∀ b a, P b → P (f b a)) :
    ∀ (l : List α) (b : β), P b → P (l.foldl f b) := by
  intro l
  induction l with
  | nil => exact fun b h => h
  | cons a t ih => exact fun b h => ih (f b a) (hP b a h)

/-- `distSq` is symmetric. -/
theorem distSq_comm (p q : Pos) : distSq p q = distSq q p := by
  unfold distSq; ring

/-- Unpacking a successful `_is_valid_cluster_center` check. -/
theorem valid_center_spec (m : MapAccessibility) (clusters : List Cluster)
    (x y : Int) (d : Nat) (h : _is_valid_cluster_center m clusters x y d = true) :
    m.is_accessible x y = true ∧
    ∀ c ∈ clusters,
      (d : Int) * (d : Int) ≤ distSq (x, y) (c.center_x, c.center_y) := by
  unfold _is_valid_cluster_center at h
  simp only [Bool.and_eq_true, List.all_eq_true, Bool.not_eq_true',
    decide_eq_false_iff_not, not_lt] at h
  exact h

/-- Unpacking a successful `_is_valid_poi_position` check. -/
theorem valid_poi_spec (m : MapAccessibility) (used : List Pos)
    (x y : Int) (d : Nat) (h : _is_valid_poi_position m used x y d = true) :
    m.is_accessible x y = true ∧
    ∀ pos ∈ used, (d : Int) * (d : Int) ≤ distSq (x, y) pos := by
  unfold _is_valid_poi_position at h
  simp only [Bool.and_eq_true, List.all_eq_true, Bool.not_eq_true',
    decide_eq_false_iff_not, not_lt] at h
  exact h

/-- A center returned by `_find_cluster_center` passed the validity
check against the current cluster pool. -/
theorem find_center_valid {σ : Type} (m : MapAccessibility) (sh : Shuffle σ)
    (t : String) (s : GenState σ) (p : Pos)
    (h : (_find_cluster_center m sh t s).1 = some p) :
    _is_valid_cluster_center m s.clusters p.1 p.2
      m.config.inter_cluster_spacing = true := by
  unfold _find_cluster_center at h
  simpa using List.find?_some h

/-- `_populate_cluster` changes neither the center nor the type of the
cluster it fills. -/
theorem populate_cluster_fields {σ : Type} (m : MapAccessibility) (sh : Shuffle σ)
    (rng : σ) (used : List Pos) (cluster : Cluster) (max_nodes : Nat) :
    (_populate_cluster m sh rng used cluster max_nodes).1.center_x = cluster.center_x ∧
    (_populate_cluster m sh rng used cluster max_nodes).1.center_y = cluster.center_y := by
  have key := foldl_inv
    (fun acc : Cluster × List Pos =>
      acc.1.center_x = cluster.center_x ∧ acc.1.center_y = cluster.center_y)
    (populate_step m max_nodes)
    (by
      intro b a hb
      unfold populate_step
      split_ifs with h1 h2
      · exact hb
      · exact hb
      · exact hb)
    ((sh (m.find_accessible_region cluster.center_x cluster.center_y
        (m.config.inter_cluster_spacing / 2)) rng).1)
    (cluster, used) ⟨rfl, rfl⟩
  exact key

/-- `generate_clusters` preserves the pairwise cluster-center spacing
invariant: every accepted center was validated against every center in
the pool at acceptance time. -/
theorem generate_clusters_centersSpaced {σ : Type} (m : MapAccessibility)
    (sh : Shuffle σ) (t : String) (nc nn : Nat) (s : GenState σ)
    (h : centersSpaced s.clusters m.config.inter_cluster_spacing) :
    centersSpaced (generate_clusters m sh t nc nn s).clusters
      m.config.inter_cluster_spacing := by
  refine foldl_inv
    (fun st : GenState σ => centersSpaced st.clusters m.config.inter_cluster_spacing)
    (generate_step m sh t nn) ?_ (List.range nc) s h
  intro st i hst
  simp only [generate_step]
  cases hfc : (_find_cluster_center m sh t st).1 with
  | none => exact hst
  | some center =>
    have hval := valid_center_spec m st.clusters center.1 center.2 _
      (find_center_valid m sh t st center hfc)
    have hfields := populate_cluster_fields m sh
      (_find_cluster_center m sh t st).2 st.used_positions
      ⟨center.1, center.2, t, []⟩ nn
    dsimp only
    split_ifs with hemp
    · exact hst
    · unfold centersSpaced at hst ⊢
      rw [List.pairwise_append]
      refine ⟨hst, List.pairwise_singleton _ _, ?_⟩
      intro a ha b hb
      simp only [List.mem_singleton] at hb
      subst hb
      rw [hfields.1, hfields.2]
      rw [distSq_comm]
      exact hval.2 a ha

/-- `_populate_cluster` preserves the used-position spacing and
accessibility invariants, keeps all of the cluster's nodes inside the
used-position set, and only grows that set. -/
theorem populate_cluster_inv {σ : Type} (m : MapAccessibility) (sh : Shuffle σ)
    (rng : σ) (used : List Pos) (cluster : Cluster) (max_nodes : Nat)
    (h1 : poisSpaced used m.config.cluster_spacing)
    (h2 : allAccessible m used)
    (h3 : ∀ p ∈ cluster.nodes, p ∈ used) :
    poisSpaced (_populate_cluster m sh rng used cluster max_nodes).2.1
        m.config.cluster_spacing ∧
    allAccessible m (_populate_cluster m sh rng used cluster max_nodes).2.1 ∧
    (∀ p ∈ (_populate_cluster m sh rng used cluster max_nodes).1.nodes,
      p ∈ (_populate_cluster m sh rng used cluster max_nodes).2.1) ∧
    (∀ p ∈ used, p ∈ (_populate_cluster m sh rng used cluster max_nodes).2.1) := by
  have key := foldl_inv
    (fun acc : Cluster × List Pos =>
      poisSpaced acc.2 m.config.cluster_spacing ∧ allAccessible m acc.2 ∧
        (∀ p ∈ acc.1.nodes, p ∈ acc.2) ∧ (∀ p ∈ used, p ∈ acc.2))
    (populate_step m max_nodes)
    (by
      intro b a hb
      obtain ⟨hs, hacc, hnodes, hsup⟩ := hb
      unfold populate_step
      split_ifs with hlen hval
      · exact ⟨hs, hacc, hnodes, hsup⟩
      · have hv := valid_poi_spec m b.2 a.1 a.2 _ hval
        unfold addUsed
        split_ifs with hmem
        · refine ⟨hs, hacc, ?_, hsup⟩
          intro p hp
          rcases List.mem_append.1 hp with hpo | hpn
          · exact hnodes p hpo
          · simp only [List.mem_singleton] at hpn
            subst hpn
            exact hmem
        · refine ⟨?_, ?_, ?_, ?_⟩
          · unfold poisSpaced at hs ⊢
            rw [List.pairwise_append]
            refine ⟨hs, List.pairwise_singleton _ _, ?_⟩
            intro u hu v hv2
            simp only [List.mem_singleton] at hv2
            subst hv2
            rw [distSq_comm]
            exact hv.2 u hu
          · intro p hp
            rcases List.mem_append.1 hp with hpo | hpn
            · exact hacc p hpo
            · simp only [List.mem_singleton] at hpn
              subst hpn
              exact hv.1
          · intro p hp
            rcases List.mem_append.1 hp with hpo | hpn
            · exact List.mem_append_left _ (hnodes p hpo)
            · simp only [List.mem_singleton] at hpn
              subst hpn
              exact List.mem_append_right _ (List.mem_singleton.2 rfl)
          · intro p hp
            exact List.mem_append_left _ (hsup p hp)
      · exact ⟨hs, hacc, hnodes, hsup⟩)
    ((sh (m.find_accessible_region cluster.center_x cluster.center_y
        (m.config.inter_cluster_spacing / 2)) rng).1)
    (cluster, used) ⟨h1, h2, h3, fun p hp => hp⟩
  exact ⟨key.1, key.2.1, key.2.2.1, key.2.2.2⟩

/-- `generate_clusters` preserves the POI spacing, accessibility and
node-bookkeeping invariants. -/
theorem generate_clusters_poisInv {σ : Type} (m : MapAccessibility)
    (sh : Shuffle σ) (t : String) (nc nn : Nat) (s : GenState σ)
    (h1 : poisSpaced s.used_positions m.config.cluster_spacing)
    (h2 : allAccessible m s.used_positions)
    (h3 : nodesSubUsed s.clusters s.used_positions) :
    poisSpaced (generate_clusters m sh t nc nn s).used_positions
        m.config.cluster_spacing ∧
    allAccessible m (generate_clusters m sh t nc nn s).used_positions ∧
    nodesSubUsed (generate_clusters m sh t nc nn s).clusters
      (generate_clusters m sh t nc nn s).used_positions := by
  refine foldl_inv
    (fun st : GenState σ =>
      poisSpaced st.used_positions m.config.cluster_spacing ∧
        allAccessible m st.used_positions ∧
        nodesSubUsed st.clusters st.used_positions)
    (generate_step m sh t nn) ?_ (List.range nc) s ⟨h1, h2, h3⟩
  intro st i hst
  obtain ⟨ha, hb, hc⟩ := hst
  simp only [generate_step]
  cases hfc : (_find_cluster_center m sh t st).1 with
  | none => exact ⟨ha, hb, hc⟩
  | some center =>
    have hp := populate_cluster_inv m sh (_find_cluster_center m sh t st).2
      st.used_positions ⟨center.1, center.2, t, []⟩ nn ha hb
      (by intro p hp; simp at hp)
    dsimp only
    split_ifs with hemp
    · refine ⟨hp.1, hp.2.1, ?_⟩
      intro c hcm p hpm
      exact hp.2.2.2 p (hc c hcm p hpm)
    · refine ⟨hp.1, hp.2.1, ?_⟩
      intro c hcm p hpm
      rcases List.mem_append.1 hcm with hco | hcn
      · exact hp.2.2.2 p (hc c hco p hpm)
      · simp only [List.mem_singleton] at hcn
        subst hcn
        exact hp.2.2.1 p hpm

/-- `generate_clusters` only ever appends clusters that accepted at
least one node: a zero-node cluster is dropped and leaves no trace in
the cluster pool. -/
theorem generate_clusters_allNonempty {σ : Type} (m : MapAccessibility)
    (sh : Shuffle σ) (t : String) (nc nn : Nat) (s : GenState σ)
    (h : allNonempty s.clusters) :
    allNonempty (generate_clusters m sh t nc nn s).clusters := by
  refine foldl_inv (fun st : GenState σ => allNonempty st.clusters)
    (generate_step m sh t nn) ?_ (List.range nc) s h
  intro st i hst
  simp only [generate_step]
  cases hfc : (_find_cluster_center m sh t st).1 with
  | none => exact hst
  | some center =>
    dsimp only
    split_ifs with hemp
    · exact hst
    · intro c hcm
      rcases List.mem_append.1 hcm with hco | hcn
      · exact hst c hco
      · simp only [List.mem_singleton] at hcn
        subst hcn
        exact hemp

/-- Claim C2 (amended): a cluster whose population step accepts zero
nodes is discarded from the output, and its center is NOT recorded in
the cluster-center spacing pool: after each `generate_*` call and after
a full run, the pool `self.clusters` (which is also the output, and is
the only list `_is_valid_cluster_center` checks) contains only clusters
that accepted at least one node, so a later candidate center is
constrained only by the centers of kept clusters. -/
theorem empty_cluster_discarded_and_unrecorded {σ : Type} (m : MapAccessibility)
    (sh : Shuffle σ) (nc nn pc pn dc dn : Nat) (s : GenState σ)
    (h : allNonempty s.clusters) :
    allNonempty (generate_charging_clusters m sh nc nn s).clusters ∧
    allNonempty (generate_pickup_clusters m sh pc pn s).clusters ∧
    allNonempty (generate_dropoff_clusters m sh dc dn s).clusters ∧
    allNonempty (generate_all m sh nc nn pc pn dc dn s).clusters :=
  ⟨generate_clusters_allNonempty m sh ("CHARGING") nc nn s h,
    generate_clusters_allNonempty m sh ("PICKUP") pc pn s h,
    generate_clusters_allNonempty m sh ("DROPOFF") dc dn s h,
    generate_clusters_allNonempty m sh ("DROPOFF") dc dn _
      (generate_clusters_allNonempty m sh ("PICKUP") pc pn _
        (generate_clusters_allNonempty m sh ("CHARGING") nc nn s h))⟩

/-- Witness for the amended C2 on a concrete run. -/
theorem empty_cluster_discarded_and_unrecorded_witness :
    allNonempty (generate_charging_clusters exMap idShuffle 3 1 s0).clusters ∧
    allNonempty (generate_pickup_clusters exMap idShuffle 1 1 s0).clusters ∧
    allNonempty (generate_dropoff_clusters exMap idShuffle 1 1 s0).clusters ∧
    allNonempty (generate_all exMap idShuffle 3 1 1 1 1 1 s0).clusters :=
  empty_cluster_discarded_and_unrecorded exMap idShuffle 3 1 1 1 1 1 s0
    (by intro c hc; simp [s0, initState] at hc)

/-- Claim C3: in a single run, every pair of distinct accepted cluster
centers — across all categories processed so far — lies at Euclidean
distance ≥ `inter_cluster_spacing` (encoded exactly as squared distance
≥ spacing²); the invariant holds after each `generate_*` call and after
the full charging → pickup → dropoff run. -/
theorem cluster_center_spacing_invariant {σ : Type} (m : MapAccessibility)
    (sh : Shuffle σ) (nc nn pc pn dc dn : Nat) (s : GenState σ)
    (h : centersSpaced s.clusters m.config.inter_cluster_spacing) :
    centersSpaced (generate_charging_clusters m sh nc nn s).clusters
        m.config.inter_cluster_spacing ∧
    centersSpaced (generate_pickup_clusters m sh pc pn s).clusters
        m.config.inter_cluster_spacing ∧
    centersSpaced (generate_dropoff_clusters m sh dc dn s).clusters
        m.config.inter_cluster_spacing ∧
    centersSpaced (generate_all m sh nc nn pc pn dc dn s).clusters
      m.config.inter_cluster_spacing :=
  ⟨generate_clusters_centersSpaced m sh ("CHARGING") nc nn s h,
    generate_clusters_centersSpaced m sh ("PICKUP") pc pn s h,
    generate_clusters_centersSpaced m sh ("DROPOFF") dc dn s h,
    generate_clusters_centersSpaced m sh ("DROPOFF") dc dn _
      (generate_clusters_centersSpaced m sh ("PICKUP") pc pn _
        (generate_clusters_centersSpaced m sh ("CHARGING") nc nn s h))⟩

/-- Witness for C3 on a concrete run. -/
theorem cluster_center_spacing_invariant_witness :
    centersSpaced (generate_charging_clusters exMap idShuffle 3 1 s0).clusters
        exMap.config.inter_cluster_spacing ∧
    centersSpaced (generate_pickup_clusters exMap idShuffle 1 1 s0).clusters
        exMap.config.inter_cluster_spacing ∧
    centersSpaced (generate_dropoff_clusters exMap idShuffle 1 1 s0).clusters
        exMap.config.inter_cluster_spacing ∧
    centersSpaced (generate_all exMap idShuffle 3 1 1 1 1 1 s0).clusters
      exMap.config.inter_cluster_spacing :=
  cluster_center_spacing_invariant exMap idShuffle 3 1 1 1 1 1 s0 List.Pairwise.nil

/-- Claim C4: in a single run, every pair of distinct accepted POI
positions — across all categories — lies at Euclidean distance ≥
`cluster_spacing` (squared-distance encoding), every accepted POI
position is an accessible cell of the inflated grid, and every node
recorded in a cluster is among the accepted positions; the invariant
holds after each `generate_*` call and after the full run. -/
theorem poi_spacing_and_accessibility_invariant {σ : Type}
    (m : MapAccessibility) (sh : Shuffle σ) (nc nn pc pn dc dn : Nat)
    (s : GenState σ)
    (h1 : poisSpaced s.used_positions m.config.cluster_spacing)
    (h2 : allAccessible m s.used_positions)
    (h3 : nodesSubUsed s.clusters s.used_positions) :
    (poisSpaced (generate_charging_clusters m sh nc nn s).used_positions
        m.config.cluster_spacing ∧
      allAccessible m (generate_charging_clusters m sh nc nn s).used_positions ∧
      nodesSubUsed (generate_charging_clusters m sh nc nn s).clusters
        (generate_charging_clusters m sh nc nn s).used_positions) ∧
    (poisSpaced (generate_pickup_clusters m sh pc pn s).used_positions
        m.config.cluster_spacing ∧
      allAccessible m (generate_pickup_clusters m sh pc pn s).used_positions ∧
      nodesSubUsed (generate_pickup_clusters m sh pc pn s).clusters
        (generate_pickup_clusters m sh pc pn s).used_positions) ∧
    (poisSpaced (generate_dropoff_clusters m sh dc dn s).used_positions
        m.config.cluster_spacing ∧
      allAccessible m (generate_dropoff_clusters m sh dc dn s).used_positions ∧
      nodesSubUsed (generate_dropoff_clusters m sh dc dn s).clusters
        (generate_dropoff_clusters m sh dc dn s).used_positions) ∧
    (poisSpaced (generate_all m sh nc nn pc pn dc dn s).used_positions
        m.config.cluster_spacing ∧
      allAccessible m (generate_all m sh nc nn pc pn dc dn s).used_positions ∧
      nodesSubUsed (generate_all m sh nc nn pc pn dc dn s).clusters
        (generate_all m sh nc nn pc pn dc dn s).used_positions) := by
  have hc := generate_clusters_poisInv m sh ("CHARGING") nc nn s h1 h2 h3
  have hp := generate_clusters_poisInv m sh ("PICKUP") pc pn
    (generate_clusters m sh ("CHARGING") nc nn s) hc.1 hc.2.1 hc.2.2
  have hd := generate_clusters_poisInv m sh ("DROPOFF") dc dn
    (generate_clusters m sh ("PICKUP") pc pn
      (generate_clusters m sh ("CHARGING") nc nn s)) hp.1 hp.2.1 hp.2.2
  exact ⟨hc, generate_clusters_poisInv m sh ("PICKUP") pc pn s h1 h2 h3,
    generate_clusters_poisInv m sh ("DROPOFF") dc dn s h1 h2 h3, hd⟩

/-- Witness for C4 on a concrete run. -/
theorem poi_spacing_and_accessibility_invariant_witness :
    poisSpaced (generate_all exMap idShuffle 3 1 1 1 1 1 s0).used_positions
        exMap.config.cluster_spacing ∧
    allAccessible exMap (generate_all exMap idShuffle 3 1 1 1 1 1 s0).used_positions ∧
    nodesSubUsed (generate_all exMap idShuffle 3 1 1 1 1 1 s0).clusters
      (generate_all exMap idShuffle 3 1 1 1 1 1 s0).used_positions :=
  (poi_spacing_and_accessibility_invariant exMap idShuffle 3 1 1 1 1 1 s0
    List.Pairwise.nil (by intro p hp; simp [s0, initState] at hp)
    (by intro c hc; simp [s0, initState] at hc)).2.2.2

/-- If no cell of the inflated grid is accessible, every `is_accessible`
query answers `false`. -/
theorem map_is_accessible_none (m : MapAccessibility)
    (h : ∀ y, y < m.height → ∀ x, x < m.width → getCell m.inflated_map y x = false) :
    ∀ x y : Int, m.is_accessible x y = false := by
  intro x y
  unfold MapAccessibility.is_accessible
  split_ifs with hc
  · exact h y.toNat (by omega) x.toNat (by omega)
  · rfl

/-- With no accessible cell, `_find_cluster_center` never finds a
center, whatever the shuffle returns. -/
theorem find_center_none {σ : Type} (m : MapAccessibility) (sh : Shuffle σ)
    (t : String) (s : GenState σ)
    (hacc : ∀ x y : Int, m.is_accessible x y = false) :
    (_find_cluster_center m sh t s).1 = none := by
  unfold _find_cluster_center
  dsimp only
  rw [List.find?_eq_none]
  intro p hp
  simp [_is_valid_cluster_center, hacc]

/-- With no accessible cell, `generate_clusters` keeps the cluster list
and the used-position set empty. -/
theorem generate_clusters_blocked {σ : Type} (m : MapAccessibility)
    (sh : Shuffle σ) (t : String) (nc nn : Nat) (s : GenState σ)
    (hacc : ∀ x y : Int, m.is_accessible x y = false)
    (h : s.clusters = [] ∧ s.used_positions = []) :
    (generate_clusters m sh t nc nn s).clusters = [] ∧
    (generate_clusters m sh t nc nn s).used_positions = [] := by
  refine foldl_inv
    (fun st : GenState σ => st.clusters = [] ∧ st.used_positions = [])
    (generate_step m sh t nn) ?_ (List.range nc) s h
  intro st i hst
  simp only [generate_step]
  rw [find_center_none m sh t st hacc]
  exact hst

/-- Each iteration of the cluster loop appends at most one cluster. -/
theorem generate_step_length {σ : Type} (m : MapAccessibility) (sh : Shuffle σ)
    (t : String) (j : Nat) (st : GenState σ) (i : Nat) :
    (generate_step m sh t j st i).clusters.length ≤ st.clusters.length + 1 := by
  simp only [generate_step]
  cases hfc : (_find_cluster_center m sh t st).1 with
  | none => exact Nat.le_succ _
  | some center =>
    dsimp only
    split_ifs with hemp
    · exact Nat.le_succ _
    · simp [List.length_append]

/-- A fold whose steps append at most one cluster appends at most one
cluster per list element. -/
theorem foldl_clusters_length {σ α : Type} (f : GenState σ → α → GenState σ)
    (hf : ∀ st a, (f st a).clusters.length ≤ st.clusters.length + 1) :
    ∀ (l : List α) (st : GenState σ),
      (l.foldl f st).clusters.length ≤ st.clusters.length + l.length := by
  intro l
  induction l with
  | nil => intro st; simp
  | cons a t ih =>
    intro st
    have hstep := hf st a
    have htail := ih (f st a)
    simp only [List.foldl_cons, List.length_cons]
    omega

/-- Claim C8: on an inflated grid with no accessible cell, the full
charging → pickup → dropoff run completes (the embedding is a total
function; the source has no raising path here) with zero clusters and an
empty `poi` array; and in general a category call returns at most the
requested number of additional clusters — a partial result rather than
an exception when space runs out. -/
theorem empty_accessible_graceful {σ : Type} (m : MapAccessibility)
    (sh : Shuffle σ) (rng : σ) (nc nn pc pn dc dn k j : Nat) (t : String)
    (s : GenState σ)
    (h : ∀ y, y < m.height → ∀ x, x < m.width → getCell m.inflated_map y x = false) :
    (generate_all m sh nc nn pc pn dc dn (initState rng)).clusters = [] ∧
    to_poi_config (generate_all m sh nc nn pc pn dc dn (initState rng)).clusters = [] ∧
    (generate_clusters m sh t k j s).clusters.length ≤ s.clusters.length + k := by
  have hacc := map_is_accessible_none m h
  have h1 := generate_clusters_blocked m sh ("CHARGING") nc nn (initState rng)
    hacc ⟨rfl, rfl⟩
  have h2 := generate_clusters_blocked m sh ("PICKUP") pc pn
    (generate_clusters m sh ("CHARGING") nc nn (initState rng)) hacc h1
  have h3 := generate_clusters_blocked m sh ("DROPOFF") dc dn
    (generate_clusters m sh ("PICKUP") pc pn
      (generate_clusters m sh ("CHARGING") nc nn (initState rng))) hacc h2
  have hmain : (generate_all m sh nc nn pc pn dc dn (initState rng)).clusters = [] := h3.1
  refine ⟨hmain, ?_, ?_⟩
  · rw [hmain]
    rfl
  · have := foldl_clusters_length (generate_step m sh t j)
      (generate_step_length m sh t j) (List.range k) s
    simpa using this

/-- `getD` after `set` at the same in-range index. -/
theorem getD_set_self {α : Type} (l : List α) (i : Nat) (a d : α)
    (h : i < l.length) : (l.set i a).getD i d = a := by
  induction l generalizing i with
  | nil => simp at h
  | cons b t ih =>
    cases i with
    | zero => rfl
    | succ n =>
      rw [List.set_cons_succ, List.getD_cons_succ]
      exact ih n (by simpa using h)

/-- `getD` after `set` at a different index. -/
theorem getD_set_ne {α : Type} (l : List α) (i j : Nat) (a d : α)
    (h : i ≠ j) : (l.set i a).getD j d = l.getD j d := by
  induction l generalizing i j with
  | nil => rfl
  | cons b t ih =>
    cases i with
    | zero =>
      cases j with
      | zero => exact absurd rfl h
      | succ n => rfl
    | succ n =>
      cases j with
      | zero => rfl
      | succ k =>
        rw [List.set_cons_succ, List.getD_cons_succ, List.getD_cons_succ]
        exact ih n k (by omega)

/-- An in-range `getD` is a member of the list. -/
theorem getD_mem {α : Type} (l : List α) (i : Nat) (d : α)
    (h : i < l.length) : l.getD i d ∈ l := by
  induction l generalizing i with
  | nil => simp at h
  | cons b t ih =>
    cases i with
    | zero => exact List.mem_cons_self b t
    | succ n =>
      rw [List.getD_cons_succ]
      exact List.mem_cons_of_mem b (ih n (by simpa using h))

/-- Reading a just-written in-range cell. -/
theorem getCell_setCell_eq (g : Grid) (y x : Nat) (v : Bool)
    (hy : y < g.length) (hx : x < (g.getD y []).length) :
    getCell (setCell g y x v) y x = v := by
  unfold getCell setCell
  rw [getD_set_self g y _ [] hy]
  exact getD_set_self _ x v true hx

/-- Reading any other cell after a write. -/
theorem getCell_setCell_ne (g : Grid) (y x : Nat) (v : Bool) (Y X : Nat)
    (h : Y ≠ y ∨ X ≠ x) : getCell (setCell g y x v) Y X = getCell g Y X := by
  unfold getCell setCell
  by_cases hyY : y = Y
  · subst hyY
    have hX : X ≠ x := by tauto
    by_cases hlen : y < g.length
    · rw [getD_set_self g y _ [] hlen]
      exact getD_set_ne _ x X v true (fun e => hX e.symm)
    · rw [List.set_eq_of_length_le (by omega)]
  · rw [getD_set_ne g y Y _ [] hyY]

/-- Every row of a well-shaped grid has length `W`. -/
theorem dims_row (g : Grid) (H W : Nat) (hd : Dims g H W) (y : Nat)
    (hy : y < H) : (g.getD y []).length = W :=
  hd.2 _ (getD_mem g y [] (by omega))

/-- `setCell` preserves the grid shape. -/
theorem dims_setCell (g : Grid) (H W y x : Nat) (v : Bool)
    (hd : Dims g H W) : Dims (setCell g y x v) H W := by
  by_cases hy : y < g.length
  · refine ⟨by simp [setCell, hd.1], ?_⟩
    intro row hrow
    rcases List.mem_or_eq_of_mem_set hrow with hmem | heq
    · exact hd.2 row hmem
    · subst heq
      rw [List.length_set]
      exact dims_row g H W hd y (by omega)
  · unfold setCell
    rw [List.set_eq_of_length_le (by omega)]
    exact hd

/-- An integer is in `intRange lo hi` iff `lo ≤ a < hi`. -/
theorem mem_intRange (a lo hi : Int) : a ∈ intRange lo hi ↔ lo ≤ a ∧ a < hi := by
  unfold intRange
  constructor
  · intro hmem
    obtain ⟨i, hi2, hEq⟩ := List.mem_map.1 hmem
    rw [List.mem_range] at hi2
    omega
  · intro h
    refine List.mem_map.2 ⟨(a - lo).toNat, ?_, ?_⟩
    · rw [List.mem_range]
      omega
    · omega

/-- Characterizing a cell after a fold of obstacle-writing steps: the
cell is an obstacle afterwards iff it was one before or some step hit
it. -/
theorem foldl_false_char {α : Type} (P : Grid → Prop) (f : Grid → α → Grid)
    (hit : α → Prop) (Y X : Nat) :
    ∀ (l : List α),
      (∀ g a, a ∈ l → P g →
        (getCell (f g a) Y X = false ↔ getCell g Y X = false ∨ hit a)) →
      (∀ g a, P g → P (f g a)) →
      ∀ g, P g →
        (getCell (l.foldl f g) Y X = false ↔
          getCell g Y X = false ∨ ∃ a ∈ l, hit a) := by
  intro l
  induction l with
  | nil =>
    intro _ _ g _
    simp
  | cons a t ih =>
    intro h hP g hg
    rw [List.foldl_cons,
      ih (fun g2 b hb hg2 => h g2 b (List.mem_cons_of_mem a hb) hg2) hP
        (f g a) (hP g a hg),
      h g a (List.mem_cons_self a t) hg]
    constructor
    · rintro ((hf | ha) | ⟨b, hb, hhit⟩)
      · exact Or.inl hf
      · exact Or.inr ⟨a, List.mem_cons_self a t, ha⟩
      · exact Or.inr ⟨b, List.mem_cons_of_mem a hb, hhit⟩
    · rintro (hf | ⟨b, hb, hhit⟩)
      · exact Or.inl (Or.inl hf)
      · rcases List.mem_cons.1 hb with rfl | hb2
        · exact Or.inl (Or.inr hhit)
        · exact Or.inr ⟨b, hb2, hhit⟩

/-- The guarded write `if grid[y][x] then grid[y][x] = False` of the
inflation loops, characterized cellwise. -/
theorem getCell_writeFalse_iff (g : Grid) (H W : Nat) (hd : Dims g H W)
    (y x : Nat) (hy : y < H) (hx : x < W) (Y X : Nat) :
    getCell (if getCell g y x then setCell g y x false else g) Y X = false ↔
      getCell g Y X = false ∨ (y = Y ∧ x = X) := by
  by_cases hyx : y = Y ∧ x = X
  · obtain ⟨rfl, rfl⟩ := hyx
    simp only [and_self, or_true, iff_true]
    by_cases hcur : getCell g y x = true
    · rw [if_pos hcur]
      exact getCell_setCell_eq g y x false (by rw [hd.1]; exact hy)
        (by rw [dims_row g H W hd y hy]; exact hx)
    · rw [if_neg hcur]
      simpa using hcur
  · have hne : Y ≠ y ∨ X ≠ x := by tauto
    have heq : getCell (if getCell g y x then setCell g y x false else g) Y X =
        getCell g Y X := by
      split_ifs
      · exact getCell_setCell_ne g y x false Y X hne
      · rfl
    rw [heq]
    simp [hyx]

/-- A square bound: `a * a ≤ b * b` with `b ≥ 0` forces `-b ≤ a ≤ b`. -/
theorem int_abs_le_of_sq_le_sq (a b : Int) (hb : 0 ≤ b) (h : a * a ≤ b * b) :
    -b ≤ a ∧ a ≤ b := by
  constructor <;> nlinarith

/-- `closeDisk` preserves the grid shape. -/
theorem dims_closeDisk (H W r y x : Nat) (g : Grid) (hd : Dims g H W) :
    Dims (closeDisk H W r y x g) H W := by
  unfold closeDisk
  refine foldl_inv (fun g : Grid => Dims g H W) _ ?_ _ _ hd
  intro g1 dy hg1
  refine foldl_inv (fun g : Grid => Dims g H W) _ ?_ _ _ hg1
  intro g2 dx hg2
  dsimp only
  split_ifs
  · exact dims_setCell _ _ _ _ _ _ hg2
  · exact hg2
  · exact hg2
  · exact hg2

/-- One `(dy, dx)` step of the `closeDisk` double loop, characterized
cellwise. -/
theorem closeDisk_step_iff (H W r y x : Nat) (dy dx : Int) (g2 : Grid)
    (hg2 : Dims g2 H W) (Y X : Nat) :
    getCell
      (if dx * dx + dy * dy ≤ (r : Int) * (r : Int) then
        if 0 ≤ (y : Int) + dy ∧ (y : Int) + dy < (H : Int) ∧
            0 ≤ (x : Int) + dx ∧ (x : Int) + dx < (W : Int) then
          if getCell g2 ((y : Int) + dy).toNat ((x : Int) + dx).toNat then
            setCell g2 ((y : Int) + dy).toNat ((x : Int) + dx).toNat false
          else g2
        else g2
      else g2) Y X = false ↔
      getCell g2 Y X = false ∨
        (dx * dx + dy * dy ≤ (r : Int) * (r : Int) ∧
          (y : Int) + dy = (Y : Int) ∧ (x : Int) + dx = (X : Int) ∧
          Y < H ∧ X < W) := by
  by_cases h1 : dx * dx + dy * dy ≤ (r : Int) * (r : Int)
  · rw [if_pos h1]
    by_cases h2 : 0 ≤ (y : Int) + dy ∧ (y : Int) + dy < (H : Int) ∧
        0 ≤ (x : Int) + dx ∧ (x : Int) + dx < (W : Int)
    · rw [if_pos h2]
      rw [getCell_writeFalse_iff g2 H W hg2 _ _ (by omega) (by omega) Y X]
      constructor
      · rintro (hf | ⟨hyy, hxx⟩)
        · exact Or.inl hf
        · exact Or.inr ⟨h1, by omega, by omega, by omega, by omega⟩
      · rintro (hf | ⟨_, hyy, hxx, hY, hX⟩)
        · exact Or.inl hf
        · exact Or.inr ⟨by omega, by omega⟩
    · rw [if_neg h2]
      constructor
      · exact Or.inl
      · rintro (hf | ⟨_, hyy, hxx, hY, hX⟩)
        · exact hf
        · exact absurd ⟨by omega, by omega, by omega, by omega⟩ h2
  · rw [if_neg h1]
    constructor
    · exact Or.inl
    · rintro (hf | ⟨hc, _⟩)
      · exact hf
      · exact absurd hc h1

/-- Cellwise characterization of `closeDisk`: a cell is an obstacle
afterwards iff it was one before, or it is an in-grid cell at Euclidean
distance at most `r` from `(x, y)`. -/
theorem closeDisk_false (H W r y x : Nat) (g : Grid) (hd : Dims g H W)
    (Y X : Nat) :
    getCell (closeDisk H W r y x g) Y X = false ↔
      getCell g Y X = false ∨
        (Y < H ∧ X < W ∧
          ((X : Int) - (x : Int)) * ((X : Int) - (x : Int)) +
            ((Y : Int) - (y : Int)) * ((Y : Int) - (y : Int)) ≤
              (r : Int) * (r : Int)) := by
  unfold closeDisk
  have hmain := foldl_false_char (fun g : Grid => Dims g H W)
    (fun g1 dy =>
      (intRange (-(r : Int)) ((r : Int) + 1)).foldl (fun g2 dx =>
        if dx * dx + dy * dy ≤ (r : Int) * (r : Int) then
          let ny := (y : Int) + dy
          let nx := (x : Int) + dx
          if 0 ≤ ny ∧ ny < (H : Int) ∧ 0 ≤ nx ∧ nx < (W : Int) then
            if getCell g2 ny.toNat nx.toNat then setCell g2 ny.toNat nx.toNat false
            else g2
          else g2
        else g2) g1)
    (fun dy => ∃ dx ∈ intRange (-(r : Int)) ((r : Int) + 1),
      dx * dx + dy * dy ≤ (r : Int) * (r : Int) ∧
        (y : Int) + dy = (Y : Int) ∧ (x : Int) + dx = (X : Int) ∧ Y < H ∧ X < W)
    Y X (intRange (-(r : Int)) ((r : Int) + 1))
    (by
      intro g1 dy _ hg1
      exact foldl_false_char (fun g : Grid => Dims g H W) _ _ Y X _
        (fun g2 dx _ hg2 => closeDisk_step_iff H W r y x dy dx g2 hg2 Y X)
        (by
          intro g2 dx hg2
          split_ifs
          · exact dims_setCell _ _ _ _ _ _ hg2
          · exact hg2
          · exact hg2
          · exact hg2) g1 hg1)
    (by
      intro g1 dy hg1
      refine foldl_inv (fun g : Grid => Dims g H W) _ ?_ _ _ hg1
      intro g2 dx hg2
      dsimp only
      split_ifs
      · exact dims_setCell _ _ _ _ _ _ hg2
      · exact hg2
      · exact hg2
      · exact hg2) g hd
  rw [hmain]
  constructor
  · rintro (hf | ⟨dy, hdy, dx, hdx, hle, hyy, hxx, hY, hX⟩)
    · exact Or.inl hf
    · refine Or.inr ⟨hY, hX, ?_⟩
      have e1 : dx = (X : Int) - (x : Int) := by omega
      have e2 : dy = (Y : Int) - (y : Int) := by omega
      rw [e1, e2] at hle
      exact hle
  · rintro (hf | ⟨hY, hX, hle⟩)
    · exact Or.inl hf
    · refine Or.inr ⟨(Y : Int) - (y : Int), ?_, (X : Int) - (x : Int), ?_, hle, by omega, by omega, hY, hX⟩
      · have hsq : ((Y : Int) - (y : Int)) * ((Y : Int) - (y : Int)) ≤
            (r : Int) * (r : Int) := by
          nlinarith [mul_self_nonneg ((X : Int) - (x : Int))]
        have hb := int_abs_le_of_sq_le_sq _ _ (by positivity) hsq
        rw [mem_intRange]
        omega
      · have hsq : ((X : Int) - (x : Int)) * ((X : Int) - (x : Int)) ≤
            (r : Int) * (r : Int) := by
          nlinarith [mul_self_nonneg ((Y : Int) - (y : Int))]
        have hb := int_abs_le_of_sq_le_sq _ _ (by positivity) hsq
        rw [mem_intRange]
        omega

/-- `inflateObstacles` preserves the grid shape. -/
theorem dims_inflateObstacles (static_map : Grid) (H W r : Nat) (g : Grid)
    (hd : Dims g H W) : Dims (inflateObstacles static_map H W r g) H W := by
  unfold inflateObstacles
  refine foldl_inv (fun g : Grid => Dims g H W) _ ?_ _ _ hd
  intro g1 y hg1
  refine foldl_inv (fun g : Grid => Dims g H W) _ ?_ _ _ hg1
  intro g2 x hg2
  split_ifs
  · exact hg2
  · exact dims_closeDisk H W r y x g2 hg2

/-- Cellwise characterization of the dilation phase: a cell is an
obstacle afterwards iff it was one before, or it is an in-grid cell
within Euclidean distance `r` of some static obstacle cell. -/
theorem inflateObstacles_false (static_map : Grid) (H W r : Nat) (g : Grid)
    (hd : Dims g H W) (Y X : Nat) :
    getCell (inflateObstacles static_map H W r g) Y X = false ↔
      getCell g Y X = false ∨
        ∃ oy, oy < H ∧ ∃ ox, ox < W ∧ getCell static_map oy ox = false ∧
          Y < H ∧ X < W ∧
          ((X : Int) - (ox : Int)) * ((X : Int) - (ox : Int)) +
            ((Y : Int) - (oy : Int)) * ((Y : Int) - (oy : Int)) ≤
              (r : Int) * (r : Int) := by
  unfold inflateObstacles
  have hmain := foldl_false_char (fun g : Grid => Dims g H W)
    (fun g1 y =>
      (List.range W).foldl (fun g2 x =>
        if getCell static_map y x then g2 else closeDisk H W r y x g2) g1)
    (fun oy => ∃ ox ∈ List.range W, getCell static_map oy ox = false ∧
      Y < H ∧ X < W ∧
      ((X : Int) - (ox : Int)) * ((X : Int) - (ox : Int)) +
        ((Y : Int) - (oy : Int)) * ((Y : Int) - (oy : Int)) ≤
          (r : Int) * (r : Int))
    Y X (List.range H)
    (by
      intro g1 oy _ hg1
      refine foldl_false_char (fun g : Grid => Dims g H W) _ _ Y X _ ?_ ?_ g1 hg1
      · intro g2 ox _ hg2
        by_cases hw : getCell static_map oy ox = true
        · rw [if_pos hw]
          constructor
          · exact Or.inl
          · rintro (hf | ⟨hobs, _⟩)
            · exact hf
            · rw [hw] at hobs
              cases hobs
        · rw [if_neg hw]
          rw [closeDisk_false H W r oy ox g2 hg2 Y X]
          constructor
          · rintro (hf | hrest)
            · exact Or.inl hf
            · exact Or.inr ⟨by simpa using hw, hrest⟩
          · rintro (hf | ⟨_, hrest⟩)
            · exact Or.inl hf
            · exact Or.inr hrest
      · intro g2 ox hg2
        dsimp only
        split_ifs
        · exact hg2
        · exact dims_closeDisk H W r oy ox g2 hg2)
    (by
      intro g1 oy hg1
      refine foldl_inv (fun g : Grid => Dims g H W) _ ?_ _ _ hg1
      intro g2 ox hg2
      dsimp only
      split_ifs
      · exact hg2
      · exact dims_closeDisk H W r oy ox g2 hg2) g hd
  rw [hmain]
  constructor
  · rintro (hf | ⟨oy, hoy, ox, hox, hrest⟩)
    · exact Or.inl hf
    · exact Or.inr ⟨oy, List.mem_range.1 hoy, ox, List.mem_range.1 hox, hrest⟩
  · rintro (hf | ⟨oy, hoy, ox, hox, hrest⟩)
    · exact Or.inl hf
    · exact Or.inr ⟨oy, List.mem_range.2 hoy, ox, List.mem_range.2 hox, hrest⟩

/-- `closeMargin` preserves the grid shape. -/
theorem dims_closeMargin (H W margin : Nat) (g : Grid) (hd : Dims g H W) :
    Dims (closeMargin H W margin g) H W := by
  unfold closeMargin
  refine foldl_inv (fun g : Grid => Dims g H W) _ ?_ _ _ hd
  intro g1 y hg1
  refine foldl_inv (fun g : Grid => Dims g H W) _ ?_ _ _ hg1
  intro g2 x hg2
  dsimp only
  split_ifs
  · exact dims_setCell _ _ _ _ _ _ hg2
  · exact hg2
  · exact hg2

/-- Cellwise characterization of the edge-margin phase: a cell is an
obstacle afterwards iff it was one before, or it lies in the margin
band. -/
theorem closeMargin_false (H W margin : Nat) (g : Grid) (hd : Dims g H W)
    (Y X : Nat) :
    getCell (closeMargin H W margin g) Y X = false ↔
      getCell g Y X = false ∨
        (Y < H ∧ X < W ∧ inMarginBand H W margin Y X) := by
  unfold closeMargin
  have hmain := foldl_false_char (fun g : Grid => Dims g H W)
    (fun g1 (y : Nat) =>
      (List.range W).foldl (fun g2 (x : Nat) =>
        if (x : Int) < (margin : Int) ∨ (W : Int) - (margin : Int) ≤ (x : Int) ∨
            (y : Int) < (margin : Int) ∨ (H : Int) - (margin : Int) ≤ (y : Int) then
          if getCell g2 y x then setCell g2 y x false else g2
        else g2) g1)
    (fun y => ∃ x ∈ List.range W, inMarginBand H W margin y x ∧ y = Y ∧ x = X)
    Y X (List.range H)
    (by
      intro g1 y hymem hg1
      refine foldl_false_char (fun g : Grid => Dims g H W) _ _ Y X _ ?_ ?_ g1 hg1
      · intro g2 x hxmem hg2
        by_cases hcond : (x : Int) < (margin : Int) ∨
            (W : Int) - (margin : Int) ≤ (x : Int) ∨
            (y : Int) < (margin : Int) ∨ (H : Int) - (margin : Int) ≤ (y : Int)
        · rw [if_pos hcond]
          rw [getCell_writeFalse_iff g2 H W hg2 y x
            (List.mem_range.1 hymem) (List.mem_range.1 hxmem) Y X]
          constructor
          · rintro (hf | ⟨hyY, hxX⟩)
            · exact Or.inl hf
            · exact Or.inr ⟨hcond, hyY, hxX⟩
          · rintro (hf | ⟨_, hyY, hxX⟩)
            · exact Or.inl hf
            · exact Or.inr ⟨hyY, hxX⟩
        · rw [if_neg hcond]
          constructor
          · exact Or.inl
          · rintro (hf | ⟨hband, _, _⟩)
            · exact hf
            · exact absurd hband hcond
      · intro g2 x hg2
        dsimp only
        split_ifs
        · exact dims_setCell _ _ _ _ _ _ hg2
        · exact hg2
        · exact hg2)
    (by
      intro g1 y hg1
      refine foldl_inv (fun g : Grid => Dims g H W) _ ?_ _ _ hg1
      intro g2 x hg2
      dsimp only
      split_ifs
      · exact dims_setCell _ _ _ _ _ _ hg2
      · exact hg2
      · exact hg2) g hd
  rw [hmain]
  constructor
  · rintro (hf | ⟨y, hymem, x, hxmem, hband, rfl, rfl⟩)
    · exact Or.inl hf
    · exact Or.inr ⟨List.mem_range.1 hymem, List.mem_range.1 hxmem, hband⟩
  · rintro (hf | ⟨hY, hX, hband⟩)
    · exact Or.inl hf
    · exact Or.inr ⟨Y, List.mem_range.2 hY, X, List.mem_range.2 hX, hband, rfl, rfl⟩

/-- Cellwise characterization of `_inflate_map`: a cell of the inflated
grid is blocked iff it was a static obstacle, or lies within distance
`r` of some static obstacle, or lies in the edge-margin band. -/
theorem inflateMap_false (static_map : Grid) (H W r margin : Nat)
    (hd : Dims static_map H W) (Y X : Nat) :
    getCell (inflateMap static_map H W r margin) Y X = false ↔
      getCell static_map Y X = false ∨
        (∃ oy, oy < H ∧ ∃ ox, ox < W ∧ getCell static_map oy ox = false ∧
          Y < H ∧ X < W ∧
          ((X : Int) - (ox : Int)) * ((X : Int) - (ox : Int)) +
            ((Y : Int) - (oy : Int)) * ((Y : Int) - (oy : Int)) ≤
              (r : Int) * (r : Int)) ∨
        (Y < H ∧ X < W ∧ inMarginBand H W margin Y X) := by
  unfold inflateMap
  rw [closeMargin_false H W margin _
    (dims_inflateObstacles static_map H W r static_map hd) Y X,
    inflateObstacles_false static_map H W r static_map hd Y X]
  exact or_assoc

/-- Claim C5 (counterexample to part (b) as stated): on the 3×3
all-walkable grid there is no obstacle at all, so every cell is farther
than `radius_cells` from every obstacle, yet `_inflate_map` with
`edge_margin = 1` turns the walkable corner (0,0) inaccessible — the
unconditional edge-margin closing is part of `_inflate_map`. -/
theorem inflate_margin_counterexample :
    (∀ oy, oy < 3 → ∀ ox, ox < 3 → getCell exGrid3 oy ox = true) ∧
    getCell exGrid3 0 0 = true ∧
    getCell (inflateMap exGrid3 3 3 1 1) 0 0 = false := by decide

/-- Claim C5 (amended): (a) every in-grid cell within Euclidean distance
`radius_cells` of an in-grid obstacle cell is inaccessible after
`_inflate_map`; (b) a cell outside the edge-margin band whose distance
to every obstacle cell exceeds `radius_cells` keeps its static value —
inflation (obstacle dilation plus the margin) never closes it. -/
theorem inflate_dilation_correct (static_map : Grid) (H W r margin : Nat)
    (hd : Dims static_map H W) :
    (∀ oy, oy < H → ∀ ox, ox < W → ∀ Y, Y < H → ∀ X, X < W →
      getCell static_map oy ox = false →
      ((X : Int) - (ox : Int)) * ((X : Int) - (ox : Int)) +
          ((Y : Int) - (oy : Int)) * ((Y : Int) - (oy : Int)) ≤
            (r : Int) * (r : Int) →
      getCell (inflateMap static_map H W r margin) Y X = false) ∧
    (∀ Y, Y < H → ∀ X, X < W → ¬ inMarginBand H W margin Y X →
      (∀ oy, oy < H → ∀ ox, ox < W → getCell static_map oy ox = false →
        (r : Int) * (r : Int) <
          ((X : Int) - (ox : Int)) * ((X : Int) - (ox : Int)) +
            ((Y : Int) - (oy : Int)) * ((Y : Int) - (oy : Int))) →
      getCell (inflateMap static_map H W r margin) Y X =
        getCell static_map Y X) := by
  constructor
  · intro oy hoy ox hox Y hY X hX hobs hle
    rw [inflateMap_false static_map H W r margin hd Y X]
    exact Or.inr (Or.inl ⟨oy, hoy, ox, hox, hobs, hY, hX, hle⟩)
  · intro Y hY X hX hband hfar
    by_cases hs : getCell static_map Y X = true
    · rw [hs]
      by_contra hne
      have hfalse : getCell (inflateMap static_map H W r margin) Y X = false := by
        revert hne
        cases getCell (inflateMap static_map H W r margin) Y X <;> simp
      rcases (inflateMap_false static_map H W r margin hd Y X).1 hfalse with
        hsf | ⟨oy, hoy, ox, hox, hobs, _, _, hle⟩ | hm
      · rw [hs] at hsf
        cases hsf
      · exact absurd hle (not_le.2 (hfar oy hoy ox hox hobs))
      · exact hband hm.2.2
    · have hs2 : getCell static_map Y X = false := by
        revert hs
        cases getCell static_map Y X <;> simp
      rw [hs2]
      exact (inflateMap_false static_map H W r margin hd Y X).2 (Or.inl hs2)

/-- Witness for the amended C5 on the 5×5 grid with one obstacle at
(2,2), radius 1 and margin 0: the neighbour (x,y)=(3,2) is closed, the
far corner (0,0) keeps its static value. -/
theorem inflate_dilation_correct_witness :
    getCell (inflateMap exGrid5 5 5 1 0) 2 3 = false ∧
    getCell (inflateMap exGrid5 5 5 1 0) 0 0 = getCell exGrid5 0 0 :=
  ⟨(inflate_dilation_correct exGrid5 5 5 1 0 (by decide)).1
      2 (by decide) 2 (by decide) 2 (by decide) 3 (by decide) (by decide) (by decide),
    (inflate_dilation_correct exGrid5 5 5 1 0 (by decide)).2
      0 (by decide) 0 (by decide) (by decide) (by decide)⟩

/-- Witness for C8 on a concrete fully blocked map. -/
theorem empty_accessible_graceful_witness :
    (generate_all exMapBlocked idShuffle 2 2 2 2 2 2 (initState ())).clusters = [] ∧
    to_poi_config (generate_all exMapBlocked idShuffle 2 2 2 2 2 2 (initState ())).clusters = [] ∧
    (generate_clusters exMapBlocked idShuffle ("CHARGING") 3 1 s0).clusters.length ≤
      s0.clusters.length + 3 :=
  empty_accessible_graceful exMapBlocked idShuffle () 2 2 2 2 2 2 3 1 ("CHARGING") s0
    (by decide)

end Mecalux
